import Mathlib

/-!
Verification of the octagon-excel-functions client pipeline.

This file gives a shallow embedding of the repository's core request/response
pipeline: the JSON handling underlying JSON.parse / JSON.stringify, the Output
Formatter (src/src/api/format.ts and its sibling variant), the Credential
Store and Agent Client (src/src/api/octagonAPIExtension.ts, second unit), and
the legacy service with its streamed-response decoder (src/src/api/octagonApi.ts).

JavaScript runtime values are modelled by the inductive JVal below; machine
floats never arise because JSON number literals are kept as their source text
(no claim performs arithmetic on them).  Byte-level chunk decoding
(TextDecoder) is modelled by taking stream chunks as strings.
-/

/-- A JavaScript value as it can appear in this pipeline: the result of
JSON.parse, plus the distinguished undefined value produced by property
access on objects lacking the property.  Number literals are kept verbatim
(e.g. num "1", num "2.5e3"); no claim computes with them. -/
inductive JVal where
  | undef : JVal
  | null : JVal
  | bool (b : Bool) : JVal
  | num (lit : String) : JVal
  | str (s : String) : JVal
  | arr (elems : List JVal) : JVal
  | obj (fields : List (String × JVal)) : JVal

/-- JSON whitespace skipping (space, tab, line feed, carriage return). -/
def skipWs : List Char → List Char
  | [] => []
  | c :: cs => if c = ' ' ∨ c = '\t' ∨ c = '\n' ∨ c = '\r' then skipWs cs else c :: cs

/-- JavaScript whitespace for String.prototype.trim (ASCII whitespace plus
the common Unicode space characters the JSON and prompt inputs can carry). -/
def jsWhitespace (c : Char) : Bool :=
  c = ' ' ∨ c = '\t' ∨ c = '\n' ∨ c = '\r' ∨ c = '\x0b' ∨ c = '\x0c' ∨
    c.toNat = 160 ∨ c.toNat = 65279 ∨ c.toNat = 8232 ∨ c.toNat = 8233

/-- Model of JavaScript s.trim(). -/
def jsTrim (s : String) : String :=
  String.mk (((s.toList.dropWhile jsWhitespace).reverse.dropWhile jsWhitespace).reverse)

/-- Model of JavaScript s.startsWith(p). -/
def jsStartsWith (s p : String) : Bool :=
  p.toList.isPrefixOf s.toList

/-- Model of JavaScript s.substring(n) for code points in the basic plane. -/
def jsDrop (s : String) (n : Nat) : String :=
  String.mk (s.toList.drop n)

/-- Split a character list at every occurrence of a separator, keeping empty
pieces, as JavaScript s.split(sep) does. -/
def splitOnChar (sep : Char) : List Char → List (List Char)
  | [] => [[]]
  | c :: cs =>
    let r := splitOnChar sep cs
    if c = sep then [] :: r
    else
      match r with
      | h :: t => (c :: h) :: t
      | [] => [[c]]

/-- Model of JavaScript s.split(sep) for a single-character separator. -/
def jsSplit (s : String) (sep : Char) : List String :=
  (splitOnChar sep s.toList).map String.mk

/-- Model of JavaScript s.toLowerCase() on the ASCII letters, the only
characters whose lowercase form can land in the recognized format strings. -/
def jsToLower (s : String) : String :=
  String.mk (s.toList.map (fun c =>
    if 'A' ≤ c ∧ c ≤ 'Z' then Char.ofNat (c.toNat + 32) else c))

/-- Value of a hexadecimal digit, if any. -/
def hexVal (c : Char) : Option Nat :=
  if '0' ≤ c ∧ c ≤ '9' then some (c.toNat - '0'.toNat)
  else if 'a' ≤ c ∧ c ≤ 'f' then some (c.toNat - 'a'.toNat + 10)
  else if 'A' ≤ c ∧ c ≤ 'F' then some (c.toNat - 'A'.toNat + 10)
  else none

/-- Parse the body of a JSON string literal (after the opening quote),
returning the decoded string and the input following the closing quote.
Escapes are those of the JSON grammar; raw control characters are rejected. -/
def parseStrBody (acc : List Char) : List Char → Option (String × List Char)
  | [] => none
  | '"' :: rest => some (String.mk acc.reverse, rest)
  | '\\' :: '"' :: rest => parseStrBody ('"' :: acc) rest
  | '\\' :: '\\' :: rest => parseStrBody ('\\' :: acc) rest
  | '\\' :: '/' :: rest => parseStrBody ('/' :: acc) rest
  | '\\' :: 'b' :: rest => parseStrBody ('\x08' :: acc) rest
  | '\\' :: 'f' :: rest => parseStrBody ('\x0c' :: acc) rest
  | '\\' :: 'n' :: rest => parseStrBody ('\n' :: acc) rest
  | '\\' :: 'r' :: rest => parseStrBody ('\r' :: acc) rest
  | '\\' :: 't' :: rest => parseStrBody ('\t' :: acc) rest
  | '\\' :: 'u' :: h1 :: h2 :: h3 :: h4 :: rest =>
    match hexVal h1, hexVal h2, hexVal h3, hexVal h4 with
    | some a, some b, some c, some d =>
      parseStrBody (Char.ofNat (((a * 16 + b) * 16 + c) * 16 + d) :: acc) rest
    | _, _, _, _ => none
  | '\\' :: _ => none
  | c :: rest => if c.toNat < 32 then none else parseStrBody (c :: acc) rest

def isDigitCh (c : Char) : Bool := '0' ≤ c ∧ c ≤ '9'

/-- Integer part of a JSON number: a single 0, or a nonzero digit followed by
digits (leading zeros are not part of the JSON grammar). -/
def parseIntPart : List Char → Option (List Char × List Char)
  | [] => none
  | c :: rest =>
    if c = '0' then some (['0'], rest)
    else if isDigitCh c then
      let p := rest.span isDigitCh
      some (c :: p.1, p.2)
    else none

/-- Optional fractional part of a JSON number. -/
def parseFrac : List Char → Option (List Char × List Char)
  | '.' :: rest =>
    let p := rest.span isDigitCh
    if p.1.isEmpty then none else some ('.' :: p.1, p.2)
  | cs => some ([], cs)

/-- Optional exponent part of a JSON number. -/
def parseExp : List Char → Option (List Char × List Char)
  | [] => some ([], [])
  | c :: rest =>
    if c = 'e' ∨ c = 'E' then
      let q := match rest with
        | '+' :: r => (['+'], r)
        | '-' :: r => (['-'], r)
        | _ => (([] : List Char), rest)
      let p := q.2.span isDigitCh
      if p.1.isEmpty then none else some (c :: (q.1 ++ p.1), p.2)
    else some ([], c :: rest)

/-- Parse a JSON number, keeping its literal text. -/
def parseNumber (cs : List Char) : Option (JVal × List Char) :=
  let s := match cs with
    | '-' :: rest => ((['-'] : List Char), rest)
    | _ => (([] : List Char), cs)
  match parseIntPart s.2 with
  | none => none
  | some (ip, r1) =>
    match parseFrac r1 with
    | none => none
    | some (fp, r2) =>
      match parseExp r2 with
      | none => none
      | some (ep, r3) => some (JVal.num (String.mk (s.1 ++ ip ++ fp ++ ep)), r3)

/-- Property assignment into an object's field list: replace in place when the
key exists (as JavaScript assignment does), otherwise append. -/
def setField (fs : List (String × JVal)) (k : String) (v : JVal) : List (String × JVal) :=
  match fs with
  | [] => [(k, v)]
  | (k1, v1) :: rest => if k1 = k then (k, v) :: rest else (k1, v1) :: setField rest k v

/-- First binding of a key in an object's field list (field lists built by
setField carry each key at most once). -/
def lookupField : List (String × JVal) → String → Option JVal
  | [], _ => none
  | (k1, v1) :: rest, k => if k1 = k then some v1 else lookupField rest k

mutual

/-- Parse one JSON value; fuel bounds recursion depth and is in practice
always sufficient when set to the input length plus one, since every
recursive call consumes at least one character first. -/
def parseValue : Nat → List Char → Option (JVal × List Char)
  | 0, _ => none
  | fuel + 1, cs =>
    match cs with
    | [] => none
    | 't' :: 'r' :: 'u' :: 'e' :: rest => some (JVal.bool true, rest)
    | 'f' :: 'a' :: 'l' :: 's' :: 'e' :: rest => some (JVal.bool false, rest)
    | 'n' :: 'u' :: 'l' :: 'l' :: rest => some (JVal.null, rest)
    | '"' :: rest =>
      match parseStrBody [] rest with
      | some (s, r) => some (JVal.str s, r)
      | none => none
    | '\x5b' :: rest =>
      (match skipWs rest with
       | '\x5d' :: r2 => some (JVal.arr [], r2)
       | r => parseArrayRest fuel r [])
    | '\x7b' :: rest =>
      (match skipWs rest with
       | '\x7d' :: r2 => some (JVal.obj [], r2)
       | r => parseObjRest fuel r [])
    | _ => parseNumber cs

/-- Parse the remaining comma-separated items of a nonempty JSON array. -/
def parseArrayRest : Nat → List Char → List JVal → Option (JVal × List Char)
  | 0, _, _ => none
  | fuel + 1, cs, acc =>
    match parseValue fuel cs with
    | some (v, r1) =>
      (match skipWs r1 with
       | ',' :: r2 => parseArrayRest fuel (skipWs r2) (v :: acc)
       | '\x5d' :: r2 => some (JVal.arr (v :: acc).reverse, r2)
       | _ => none)
    | none => none

/-- Parse the remaining members of a nonempty JSON object; duplicate keys
overwrite in place, as JSON.parse does. -/
def parseObjRest : Nat → List Char → List (String × JVal) → Option (JVal × List Char)
  | 0, _, _ => none
  | fuel + 1, cs, acc =>
    match cs with
    | '"' :: r0 =>
      (match parseStrBody [] r0 with
       | some (k, r1) =>
         (match skipWs r1 with
          | ':' :: r2 =>
            (match parseValue fuel (skipWs r2) with
             | some (v, r3) =>
               (match skipWs r3 with
                | ',' :: r4 => parseObjRest fuel (skipWs r4) (setField acc k v)
                | '\x7d' :: r4 => some (JVal.obj (setField acc k v), r4)
                | _ => none)
             | none => none)
          | _ => none)
       | none => none)
    | _ => none

end

/-- Model of JSON.parse: none models a thrown SyntaxError.  A complete value
must be followed only by whitespace. -/
def jsonParse (s : String) : Option JVal :=
  let cs := skipWs s.toList
  match parseValue (cs.length + 1) cs with
  | some (v, rest) => if (skipWs rest).isEmpty then some v else none
  | none => none

/-- JavaScript truthiness of a value.  A JSON number is falsy exactly when it
denotes zero, i.e. its mantissa has no nonzero digit. -/
def truthy : JVal → Bool
  | .undef => false
  | .null => false
  | .bool b => b
  | .num lit => ((lit.toList.takeWhile (fun c => c ≠ 'e' ∧ c ≠ 'E')).filter
      (fun c => '1' ≤ c ∧ c ≤ '9')) ≠ []
  | .str s => s ≠ ""
  | .arr _ => true
  | .obj _ => true

/-- Property read v.k on a value known not to be null or undefined, and the
optional-chaining read v?.k: an object's field when present, otherwise the
undefined value (primitives and arrays have no own properties of the names
this pipeline reads). -/
def optChainProp (v : JVal) (k : String) : JVal :=
  match v with
  | .obj fs => (lookupField fs k).getD JVal.undef
  | _ => JVal.undef

/-- Property read v.k with JavaScript's TypeError on null and undefined
receivers, modelled as the error case. -/
def propAccess (v : JVal) (k : String) : Except Unit JVal :=
  match v with
  | .undef => Except.error ()
  | .null => Except.error ()
  | _ => Except.ok (optChainProp v k)

/-- v || w in JavaScript: the first operand when truthy, otherwise the
second. -/
def jsOr (v w : JVal) : JVal := if truthy v then v else w

/-- Strict comparison of a value with a string literal, as in
data.type === "response.completed". -/
def strictEqStr (v : JVal) (s : String) : Bool :=
  match v with
  | .str t => t = s
  | _ => false

mutual

/-- JavaScript string coercion (String(v), or the += operand coercion):
primitives print their contents, arrays join their elements with commas
(null and undefined elements printing as empty), objects print as
[object Object]. -/
def jsToString : JVal → String
  | .undef => "undefined"
  | .null => "null"
  | .bool b => if b then "true" else "false"
  | .num lit => lit
  | .str s => s
  | .arr xs => jsToStringItems xs
  | .obj _ => "[object Object]"

/-- Comma-joined array elements for jsToString. -/
def jsToStringItems : List JVal → String
  | [] => ""
  | [x] =>
    (match x with
     | .undef => ""
     | .null => ""
     | v => jsToString v)
  | x :: xs =>
    (match x with
     | .undef => ""
     | .null => ""
     | v => jsToString v) ++ "," ++ jsToStringItems xs

end

/-- One character of a JSON string literal as JSON.stringify escapes it. -/
def escapeJsonChar (c : Char) : String :=
  if c = '"' then "\\\""
  else if c = '\\' then "\\\\"
  else if c = '\n' then "\\n"
  else if c = '\r' then "\\r"
  else if c = '\t' then "\\t"
  else if c = '\x08' then "\\b"
  else if c = '\x0c' then "\\f"
  else if c.toNat < 32 then
    "\\u00" ++ String.mk [
      (if c.toNat / 16 < 10 then Char.ofNat ('0'.toNat + c.toNat / 16)
       else Char.ofNat ('a'.toNat + c.toNat / 16 - 10)),
      (if c.toNat % 16 < 10 then Char.ofNat ('0'.toNat + c.toNat % 16)
       else Char.ofNat ('a'.toNat + c.toNat % 16 - 10))]
  else String.singleton c

/-- A JSON string literal for s, with JSON.stringify's escaping. -/
def quoteString (s : String) : String :=
  "\"" ++ String.join (s.toList.map escapeJsonChar) ++ "\""

mutual

/-- Model of JSON.stringify on the values this pipeline stores.  Fields whose
value is undefined are omitted and undefined array elements print as null,
as in JavaScript; a top-level undefined never arises here (JSON.parse never
produces one). -/
def jsonStringify : JVal → String
  | .undef => "null"
  | .null => "null"
  | .bool b => if b then "true" else "false"
  | .num lit => lit
  | .str s => quoteString s
  | .arr xs => "\x5b" ++ stringifyItems xs ++ "\x5d"
  | .obj fs => "\x7b" ++ stringifyFields fs ++ "\x7d"

/-- Comma-separated serialized array elements. -/
def stringifyItems : List JVal → String
  | [] => ""
  | [x] => jsonStringify x
  | x :: xs => jsonStringify x ++ "," ++ stringifyItems xs

/-- Comma-separated serialized object members, skipping undefined values. -/
def stringifyFields : List (String × JVal) → String
  | [] => ""
  | [(k, v)] =>
    (match v with
     | .undef => ""
     | w => quoteString k ++ ":" ++ jsonStringify w)
  | (k, v) :: fs =>
    (match v with
     | .undef => stringifyFields fs
     | w => quoteString k ++ ":" ++ jsonStringify w ++ "," ++ stringifyFields fs)

end

/-!
Output Formatter, src/src/api/format.ts and the sibling variant in
src/unnamed/part_001 (identical except that the single-cell format string is
"single_cell" there versus "cell" here, and that the part_001 variant guards
a missing data field).
-/

/-- The error values thrown in this pipeline: plain Error objects and
CustomFunctions.Error objects with their error code. -/
inductive ErrorCode where
  | invalidValue : ErrorCode
  | notAvailable : ErrorCode
deriving DecidableEq

inductive JsError where
  | plain (msg : String) : JsError
  | customFunctions (code : ErrorCode) (msg : String) : JsError
deriving DecidableEq

/-- The outbound schema hints RAW_TEXT, TABLE_FORMAT and SINGLE_CELL_FORMAT of
format.ts.  The JSON-schema literal bodies are inert configuration data no
claim reads, so the three constants are represented by this enumeration. -/
inductive TextFormat where
  | RAW_TEXT : TextFormat
  | TABLE_FORMAT : TextFormat
  | SINGLE_CELL_FORMAT : TextFormat
  | inheritedProto (name : String) : TextFormat
deriving DecidableEq

/-- The property names every plain object literal inherits from
Object.prototype; each holds a function (or, for the last, the prototype
object itself), all of which are truthy, so a bare formatMap[format] lookup
reaches them. -/
def objectProtoProps : List String :=
  ["constructor", "hasOwnProperty", "isPrototypeOf", "propertyIsEnumerable",
   "toLocaleString", "toString", "valueOf", "__defineGetter__",
   "__defineSetter__", "__lookupGetter__", "__lookupSetter__", "__proto__"]

/-- formatMap of format.ts: raw, table and single_cell are the object's own
properties, but formatMap[format] is a plain-object property lookup with a
live prototype chain, so the Object.prototype member names also yield
(truthy, inherited) values; everything else is undefined, modelled none. -/
def formatMap (format : String) : Option TextFormat :=
  if format = "raw" then some TextFormat.RAW_TEXT
  else if format = "table" then some TextFormat.TABLE_FORMAT
  else if format = "single_cell" then some TextFormat.SINGLE_CELL_FORMAT
  else if format ∈ objectProtoProps then some (TextFormat.inheritedProto format)
  else none

/-- getTextFormat of format.ts: the looked-up value when it is truthy — the
schema hint for a recognized format string, but also the inherited
Object.prototype member for its name — and a thrown CustomFunctions.Error
with code invalidValue when the lookup is undefined. -/
def getTextFormat (format : String) : Except JsError TextFormat :=
  match formatMap format with
  | some tf => Except.ok tf
  | none => Except.error (JsError.customFunctions ErrorCode.invalidValue
      "Invalid format. Please use \"raw\", \"table\", or \"single_cell\"")

/-- The 1x1 fallback grid both parseTextFormat variants return on a parse
failure. -/
def fallbackGrid : JVal := JVal.arr [JVal.arr [JVal.str "No response content"]]

/-- parseTextFormat of src/src/api/format.ts.  The try block evaluates
JSON.parse(content).data; a JSON.parse SyntaxError or the TypeError from
reading .data on null falls to the catch and yields the fallback grid, but a
successfully read data property is returned as-is, undefined included. -/
def parseTextFormat (content format : String) : JVal :=
  if format = "table" then
    match jsonParse content with
    | none => fallbackGrid
    | some v =>
      match propAccess v "data" with
      | Except.error _ => fallbackGrid
      | Except.ok d => d
  else if format = "single_cell" then
    match jsonParse content with
    | none => fallbackGrid
    | some v =>
      match propAccess v "data" with
      | Except.error _ => fallbackGrid
      | Except.ok d => JVal.arr [JVal.arr [d]]
  else JVal.arr [JVal.arr [JVal.str content]]

/-- parseTextFormat of src/unnamed/part_001: as above but the single-cell
format string is "cell", a table data field that is null or undefined falls
back to the default response (the ?? operator), and a cell data field equal
to undefined does as well (the !== undefined guard). -/
def parseTextFormatCell (content format : String) : JVal :=
  if format = "table" then
    match jsonParse content with
    | none => fallbackGrid
    | some v =>
      match propAccess v "data" with
      | Except.error _ => fallbackGrid
      | Except.ok d =>
        match d with
        | JVal.undef => fallbackGrid
        | JVal.null => fallbackGrid
        | w => w
  else if format = "cell" then
    match jsonParse content with
    | none => fallbackGrid
    | some v =>
      match propAccess v "data" with
      | Except.error _ => fallbackGrid
      | Except.ok d =>
        match d with
        | JVal.undef => fallbackGrid
        | w => JVal.arr [JVal.arr [w]]
  else JVal.arr [JVal.arr [JVal.str content]]

/-!
Current-generation OctagonApiService (src/src/api/octagonAPIExtension.ts,
second unit): credential store over OfficeRuntime.storage and the callAgent
pipeline, with the custom-function surface OCTAGON_AGENT of
src/src/functions/functions.ts (first unit).  The service state is the
in-memory apiKey field together with the one OfficeRuntime.storage slot the
service uses (key octagon_api_key); the network is an oracle mapping the
outbound request to the HTTP response the fetch would produce.
-/

structure ApiServiceState where
  apiKey : Option String
  storage : Option String
deriving DecidableEq

/-- clearApiKey: null the in-memory key and remove the storage item. -/
def clearApiKey (_s : ApiServiceState) : ApiServiceState :=
  { apiKey := none, storage := none }

/-- setApiKey: trim the input (empty trimming to null), store it in memory,
and either delegate to clearApiKey or persist the trimmed key. -/
def setApiKey (s : ApiServiceState) (apiKey : String) : ApiServiceState :=
  let trimmedKey : Option String := if jsTrim apiKey = "" then none else some (jsTrim apiKey)
  match trimmedKey with
  | none => clearApiKey { s with apiKey := none }
  | some k => { apiKey := some k, storage := some k }

/-- getStoredApiKey: the storage slot's value when it is a string. -/
def getStoredApiKey (s : ApiServiceState) : Option String := s.storage

/-- loadApiKey: adopt a truthy stored key, otherwise null the in-memory
key. -/
def loadApiKey (s : ApiServiceState) : ApiServiceState :=
  match getStoredApiKey s with
  | some k => if k = "" then { s with apiKey := none } else { s with apiKey := some k }
  | none => { s with apiKey := none }

/-- isAuthenticated: reload from storage, then test the in-memory key's
truthiness; returns the answer and the reloaded state. -/
def isAuthenticated (s : ApiServiceState) : Bool × ApiServiceState :=
  let s1 := loadApiKey s
  (match s1.apiKey with
   | some k => k ≠ ""
   | none => false, s1)

/-- The outbound request body of callAgent (model, input, text hint). -/
structure AgentRequest where
  model : String
  input : String
  text : TextFormat

/-- The HTTP response an oracle returns for a fetch. -/
structure HttpResponse where
  ok : Bool
  status : Nat
  body : String

def isArray : JVal → Bool
  | JVal.arr _ => true
  | _ => false

/-- The inner message loop of parseAgentResponse: concatenate the text of
each output_text item (the += coercing non-strings as JavaScript does); a
null or undefined item raises the TypeError its property read would. -/
def extractMsgs : List JVal → Except Unit String
  | [] => Except.ok ""
  | m :: rest =>
    match propAccess m "type" with
    | Except.error e => Except.error e
    | Except.ok t =>
      if ¬ strictEqStr t "output_text" then extractMsgs rest
      else
        match propAccess m "text" with
        | Except.error e => Except.error e
        | Except.ok tx =>
          match extractMsgs rest with
          | Except.error e => Except.error e
          | Except.ok s => Except.ok (jsToString tx ++ s)

/-- The outer output loop of parseAgentResponse: only message items with an
array content contribute. -/
def extractOutputs : List JVal → Except Unit String
  | [] => Except.ok ""
  | output :: rest =>
    match propAccess output "type" with
    | Except.error e => Except.error e
    | Except.ok t =>
      if ¬ strictEqStr t "message" then extractOutputs rest
      else
        match propAccess output "content" with
        | Except.error e => Except.error e
        | Except.ok c =>
          if ¬ truthy c ∨ ¬ isArray c then extractOutputs rest
          else
            match c with
            | JVal.arr msgs =>
              (match extractMsgs msgs with
               | Except.error e => Except.error e
               | Except.ok s1 =>
                 match extractOutputs rest with
                 | Except.error e => Except.error e
                 | Except.ok s2 => Except.ok (s1 ++ s2))
            | _ => extractOutputs rest

/-- The decoded response of the current service. -/
structure AgentResponse where
  content : String
  id : JVal
  model : JVal

/-- parseAgentResponse: parse the body as one JSON document; a missing or
non-array output yields an empty content with the optional-chained id and
model; otherwise concatenate all output_text fragments.  Any exception in
the try block becomes the processing failure. -/
def parseAgentResponse (body : String) : Except JsError AgentResponse :=
  match jsonParse body with
  | none => Except.error (JsError.plain "Failed to process agent response")
  | some data =>
    match propAccess data "output" with
    | Except.error _ => Except.error (JsError.plain "Failed to process agent response")
    | Except.ok outputV =>
      if ¬ truthy outputV ∨ ¬ isArray outputV then
        Except.ok { content := "", id := optChainProp data "id",
                    model := optChainProp data "model" }
      else
        match outputV with
        | JVal.arr outs =>
          (match extractOutputs outs with
           | Except.error _ => Except.error (JsError.plain "Failed to process agent response")
           | Except.ok content =>
             Except.ok { content := content, id := optChainProp data "id",
                         model := optChainProp data "model" })
        | _ => Except.error (JsError.plain "Failed to process agent response")

/-- handleApiError: best-effort JSON parse of the error body for a detail
message, falling back to a generic one, packaged with the HTTP status. -/
def handleApiError (resp : HttpResponse) : JsError :=
  let msg := match jsonParse resp.body with
    | none => "Unknown error"
    | some d =>
      match optChainProp d "detail" with
      | JVal.undef => "Unknown error"
      | JVal.null => "Unknown error"
      | v => jsToString v
  JsError.plain ("HTTP " ++ toString resp.status ++ ": " ++ msg)

/-- createResponse as called from callAgent (no explicit key, so the token is
the in-memory apiKey).  The second component counts the fetches issued. -/
def createResponse (s : ApiServiceState) (data : AgentRequest)
    (oracle : AgentRequest → HttpResponse) : Except JsError AgentResponse × Nat :=
  match s.apiKey with
  | none => (Except.error (JsError.plain "No API key provided"), 0)
  | some _ =>
    let resp := oracle data
    if ¬ resp.ok then (Except.error (handleApiError resp), 1)
    else (parseAgentResponse resp.body, 1)

structure CallResult where
  result : Except JsError JVal
  fetches : Nat

/-- callAgent of the current service: validate the prompt, require
authentication, build the request with getTextFormat's hint (throwing on an
unrecognized format), issue it, and feed the decoded content — replaced by
"No response content" when falsy — to parseTextFormat. -/
def callAgent (s : ApiServiceState) (model prompt format : String)
    (oracle : AgentRequest → HttpResponse) : CallResult :=
  if prompt = "" ∨ jsTrim prompt = "" then
    { result := Except.error (JsError.plain "Please provide a valid prompt"), fetches := 0 }
  else
    let auth := isAuthenticated s
    if ¬ auth.1 then
      { result := Except.error
          (JsError.plain "Not authenticated. Please set your API key first."), fetches := 0 }
    else
      match getTextFormat format with
      | Except.error e => { result := Except.error e, fetches := 0 }
      | Except.ok hint =>
        match createResponse auth.2 { model := model, input := prompt, text := hint } oracle with
        | (Except.error e, n) => { result := Except.error e, fetches := n }
        | (Except.ok r, n) =>
          { result := Except.ok (parseTextFormat
              (if r.content = "" then "No response content" else r.content) format),
            fetches := n }

/-- OCTAGON_AGENT of src/src/functions/functions.ts: the format argument
defaults to "table" whenever it is falsy — omitted or the empty string — and
is lowercased otherwise (format ? format.toLowerCase() : "table"); call the
octagon-agent model, rethrow CustomFunctions errors and wrap any other error
as a notAvailable CustomFunctions error. -/
def OCTAGON_AGENT (s : ApiServiceState) (prompt : String) (format : Option String)
    (oracle : AgentRequest → HttpResponse) : CallResult :=
  let agentFormat := match format with
    | some f => if f = "" then "table" else jsToLower f
    | none => "table"
  let out := callAgent s "octagon-agent" prompt agentFormat oracle
  match out.result with
  | Except.error (JsError.customFunctions c m) =>
    { result := Except.error (JsError.customFunctions c m), fetches := out.fetches }
  | Except.error (JsError.plain m) =>
    { result := Except.error (JsError.customFunctions ErrorCode.notAvailable m),
      fetches := out.fetches }
  | Except.ok v => { result := Except.ok v, fetches := out.fetches }

/-!
Legacy OctagonApiService (src/src/api/octagonApi.ts): sessionStorage-backed
credential writes (direct key octagon_api_key plus the CachedSessionSettings
JSON blob) and the streamed-response decoder handleStreamedResponse.
-/

/-- The legacy service's state: in-memory apiKey plus the two sessionStorage
slots it touches. -/
structure LegacyState where
  apiKey : Option String
  octagonApiKey : Option String
  cachedSessionSettings : Option String

/-- setApiKey of the legacy service (with saveApiKey inlined): the raw,
untrimmed key goes to memory and to the direct storage key; the
CachedSessionSettings blob gets the key assigned into its parsed form and is
rewritten, with a fresh blob created when none (or an empty string) was
stored.  A parse failure, or the strict-mode TypeError from assigning a
property on a primitive or null, is caught and leaves the blob untouched;
a property added to a parsed array is dropped again by JSON.stringify. -/
def setApiKeyLegacy (s : LegacyState) (apiKey : String) : LegacyState :=
  let fresh := some (jsonStringify (JVal.obj [("octagon_api_key", JVal.str apiKey)]))
  let cached := match s.cachedSessionSettings with
    | none => fresh
    | some blob =>
      if blob = "" then fresh
      else
        match jsonParse blob with
        | none => s.cachedSessionSettings
        | some v =>
          match v with
          | JVal.obj fs =>
            some (jsonStringify (JVal.obj (setField fs "octagon_api_key" (JVal.str apiKey))))
          | JVal.arr xs => some (jsonStringify (JVal.arr xs))
          | _ => s.cachedSessionSettings
  { apiKey := some apiKey, octagonApiKey := some apiKey, cachedSessionSettings := cached }

/-- clearApiKey of the legacy service: null the in-memory key, remove the
direct storage key, and delete the octagon_api_key property from the parsed
CachedSessionSettings blob before rewriting it; an absent or empty blob, a
parse failure or a falsy parsed value leaves the blob as it was. -/
def clearApiKeyLegacy (s : LegacyState) : LegacyState :=
  let cached := match s.cachedSessionSettings with
    | none => none
    | some blob =>
      if blob = "" then some blob
      else
        match jsonParse blob with
        | none => some blob
        | some v =>
          if truthy v then
            match v with
            | JVal.obj fs =>
              some (jsonStringify (JVal.obj (fs.filter (fun p => p.1 ≠ "octagon_api_key"))))
            | w => some (jsonStringify w)
          else some blob
  { apiKey := none, octagonApiKey := none, cachedSessionSettings := cached }

/-- The accumulator of the stream-processing loop. -/
structure StreamState where
  fullText : String
  finalResponse : JVal
  parseErrorCount : Nat

def initialStreamState : StreamState :=
  { fullText := "", finalResponse := JVal.null, parseErrorCount := 0 }

/-- The event dispatch of handleStreamedResponse for a successfully parsed,
non-null event object, keyed on its type field. -/
def dispatchEvent (st : StreamState) (data : JVal) : StreamState :=
  let ty := optChainProp data "type"
  if strictEqStr ty "response.completed" then
    { st with finalResponse := optChainProp data "response" }
  else if strictEqStr ty "response.output_text.delta" ∨
      strictEqStr ty "response.output_text.done" then
    let delta := optChainProp data "delta"
    if truthy delta then { st with fullText := st.fullText ++ jsToString delta }
    else
      let tx := optChainProp data "text"
      if truthy tx then { st with fullText := jsToString tx } else st
  else if strictEqStr ty "response.content_part.done" ∧
      truthy (optChainProp (optChainProp data "part") "text") then
    { st with fullText := jsToString (optChainProp (optChainProp data "part") "text") }
  else if truthy (optChainProp data "response") ∧
      truthy (optChainProp (optChainProp data "response") "output") then
    { st with finalResponse := optChainProp data "response" }
  else st

/-- The catch handler around the per-line JSON.parse and dispatch: count the
failure and abort the whole decode past five of them. -/
def countParseError (st : StreamState) : Except String StreamState :=
  let c := st.parseErrorCount + 1
  if c > 5 then Except.error "Stream parsing failed: Too many JSON parse errors"
  else Except.ok { st with parseErrorCount := c }

/-- Process one line of a chunk: only lines carrying the data: marker are
events; the [DONE] sentinel is skipped; a JSON.parse failure, or the
TypeError from reading .type on a parsed null, is counted by the catch
handler. -/
def processLine (st : StreamState) (line : String) : Except String StreamState :=
  if ¬ jsStartsWith line "data: " then Except.ok st
  else
    let jsonStr := jsDrop line 6
    if jsTrim jsonStr = "[DONE]" then Except.ok st
    else
      match jsonParse jsonStr with
      | some JVal.null => countParseError st
      | some data => Except.ok (dispatchEvent st data)
      | none => countParseError st

def processLines (st : StreamState) : List String → Except String StreamState
  | [] => Except.ok st
  | l :: ls =>
    match processLine st l with
    | Except.ok st1 => processLines st1 ls
    | Except.error e => Except.error e

/-- Each decoded chunk is split on newlines, as the loop body does. -/
def linesOf (chunk : String) : List String := jsSplit chunk '\n'

def processChunks (st : StreamState) : List String → Except String StreamState
  | [] => Except.ok st
  | c :: cs =>
    match processLines st (linesOf c) with
    | Except.ok st1 => processChunks st1 cs
    | Except.error e => Except.error e

/-- The transformed response handleStreamedResponse assembles on normal
completion. -/
structure StreamResult where
  content : String
  id : JVal
  model : JVal
  created : JVal
  output : JVal
  rawResponse : JVal

/-- handleStreamedResponse over the decoded text chunks of the body; now
stands for the Date.now() default of the created field.  The error case is
the success:false result the outer catch produces from the thrown abort. -/
def handleStreamedResponse (chunks : List String) (now : JVal) : Except String StreamResult :=
  match processChunks initialStreamState chunks with
  | Except.error e => Except.error e
  | Except.ok st =>
    Except.ok {
      content := st.fullText,
      id := jsOr (optChainProp st.finalResponse "id") (JVal.str ""),
      model := jsOr (optChainProp st.finalResponse "model") (JVal.str ""),
      created := jsOr (optChainProp st.finalResponse "created_at") now,
      output := jsOr (optChainProp st.finalResponse "output") (JVal.arr []),
      rawResponse := st.finalResponse }

/-- The event lines the decoder's catch handler counts: a data: line whose
remainder is not the sentinel and either fails JSON.parse or parses to null
(whose .type read throws inside the same try block). -/
def isBadEventLine (line : String) : Bool :=
  jsStartsWith line "data: " &&
    (let jsonStr := jsDrop line 6
     jsTrim jsonStr ≠ "[DONE]" &&
       match jsonParse jsonStr with
       | none => true
       | some JVal.null => true
       | some _ => false)

/-- The malformed event lines exactly as the claim words them: a data: line
whose remainder is neither the sentinel nor valid JSON. -/
def isMalformedEventLine (line : String) : Bool :=
  jsStartsWith line "data: " &&
    (let jsonStr := jsDrop line 6
     jsTrim jsonStr ≠ "[DONE]" && (jsonParse jsonStr).isNone)

def badLineCount (chunks : List String) : Nat :=
  ((chunks.map linesOf).flatten).countP isBadEventLine

def malformedLineCount (chunks : List String) : Nat :=
  ((chunks.map linesOf).flatten).countP isMalformedEventLine

/-!
Shared helper lemmas.
-/

lemma isAuthenticated_apiKey_of_true {s : ApiServiceState}
    (h : (isAuthenticated s).1 = true) :
    ∃ k, (isAuthenticated s).2.apiKey = some k := by
  unfold isAuthenticated loadApiKey getStoredApiKey at h ⊢
  cases hs : s.storage with
  | none => simp [hs] at h
  | some k =>
    by_cases hk : k = ""
    · simp [hs, hk] at h
    · exact ⟨k, by simp [hs, hk]⟩

lemma lookupField_filter_self (fs : List (String × JVal)) (key : String) :
    lookupField (fs.filter (fun p => p.1 ≠ key)) key = none := by
  simp only [ne_eq, decide_not]
  induction fs with
  | nil => rfl
  | cons p rest ih =>
    obtain ⟨k1, v1⟩ := p
    rw [List.filter_cons]
    by_cases hp : k1 = key
    · simpa [hp] using ih
    · simpa [hp, lookupField] using ih

lemma lookupField_filter_other (fs : List (String × JVal)) (key k : String)
    (hk : k ≠ key) :
    lookupField (fs.filter (fun p => p.1 ≠ key)) k = lookupField fs k := by
  simp only [ne_eq, decide_not]
  induction fs with
  | nil => rfl
  | cons p rest ih =>
    obtain ⟨k1, v1⟩ := p
    rw [List.filter_cons]
    have hk2 : key ≠ k := fun hh => hk hh.symm
    by_cases hp : k1 = key
    · simpa [hp, lookupField, hk2] using ih
    · by_cases hpk : k1 = k
      · simp [hp, lookupField, hpk, hk, hk2]
      · simpa [hp, lookupField, hpk] using ih

/-!
The claims.
-/

/-- C4: decoding the content string with data [[1,"a"],[2,"b"]] through the
Output Formatter under format table yields exactly that grid. -/
theorem parseTextFormat_table_round_trip :
    parseTextFormat "\x7b\"data\": [[1,\"a\"],[2,\"b\"]]\x7d" "table" =
      JVal.arr [JVal.arr [JVal.num "1", JVal.str "a"],
                JVal.arr [JVal.num "2", JVal.str "b"]] := rfl

/-- C1 (amended): on content that fails to parse as JSON, both
parseTextFormat variants return the fallback grid (and, being total
functions of the model, never throw); on content parsing to an object with
no data field, the part_001 variant returns the fallback grid, while the
format.ts variant returns the undefined data property itself for table and
wraps it as a 1x1 grid for single_cell. -/
theorem parseTextFormat_fallback_behaviour (content format : String) :
    (jsonParse content = none →
      ((format = "table" ∨ format = "single_cell") →
        parseTextFormat content format = fallbackGrid) ∧
      ((format = "table" ∨ format = "cell") →
        parseTextFormatCell content format = fallbackGrid)) ∧
    (∀ fs, jsonParse content = some (JVal.obj fs) → lookupField fs "data" = none →
      ((format = "table" ∨ format = "cell") →
        parseTextFormatCell content format = fallbackGrid) ∧
      parseTextFormat content "table" = JVal.undef ∧
      parseTextFormat content "single_cell" = JVal.arr [JVal.arr [JVal.undef]]) := by
  constructor
  · intro hp
    constructor
    · rintro (h | h) <;> subst h <;> simp [parseTextFormat, hp]
    · rintro (h | h) <;> subst h <;> simp [parseTextFormatCell, hp]
  · intro fs hp hd
    have hacc : propAccess (JVal.obj fs) "data" = Except.ok JVal.undef := by
      simp [propAccess, optChainProp, hd]
    refine ⟨?_, ?_, ?_⟩
    · rintro (h | h) <;> subst h <;> simp [parseTextFormatCell, hp, hacc]
    · simp [parseTextFormat, hp, hacc]
    · simp [parseTextFormat, hp, hacc]

/-- Witness for C1 at concrete inputs: unparseable content falls back, and an
object without a data field falls back in the part_001 variant. -/
theorem parseTextFormat_fallback_behaviour_witness :
    jsonParse "not json" = none ∧
      parseTextFormat "not json" "table" = fallbackGrid ∧
      jsonParse "\x7b\"a\":1\x7d" = some (JVal.obj [("a", JVal.num "1")]) ∧
      parseTextFormatCell "\x7b\"a\":1\x7d" "cell" = fallbackGrid :=
  ⟨rfl,
   ((parseTextFormat_fallback_behaviour "not json" "table").1 rfl).1 (Or.inl rfl),
   rfl,
   ((parseTextFormat_fallback_behaviour "\x7b\"a\":1\x7d" "cell").2
      [("a", JVal.num "1")] rfl rfl).1 (Or.inr rfl)⟩

/-- Counterexample to C1 as stated: content parsing to an object with no data
field makes the format.ts parseTextFormat return undefined under format
table, not the fallback grid. -/
theorem parseTextFormat_missing_data_counterexample :
    parseTextFormat "\x7b\"a\":1\x7d" "table" = JVal.undef ∧
      JVal.undef ≠ fallbackGrid :=
  ⟨rfl, by simp [fallbackGrid]⟩

/-- C5: an empty or whitespace-only prompt makes callAgent fail with the
invalid-input error before any fetch, for every model, format, state and
network oracle. -/
theorem callAgent_empty_prompt_no_fetch (s : ApiServiceState)
    (model prompt format : String) (oracle : AgentRequest → HttpResponse)
    (h : jsTrim prompt = "") :
    callAgent s model prompt format oracle =
      { result := Except.error (JsError.plain "Please provide a valid prompt"),
        fetches := 0 } := by
  unfold callAgent
  rw [if_pos (Or.inr h)]

/-- Witness for C5 at the whitespace prompt. -/
theorem callAgent_empty_prompt_no_fetch_witness :
    jsTrim "   " = "" ∧
      callAgent { apiKey := none, storage := some "key" } "octagon-agent" "   " "table"
          (fun _ => { ok := true, status := 200, body := "" }) =
        { result := Except.error (JsError.plain "Please provide a valid prompt"),
          fetches := 0 } :=
  ⟨rfl, callAgent_empty_prompt_no_fetch _ _ _ _ _ rfl⟩

/-- C7 (amended): with no usable credential, callAgent fails with the
unauthenticated error, before any fetch, for every prompt that is non-empty
after trimming; an empty or whitespace-only prompt fails with the
invalid-prompt error even when unauthenticated, because the prompt check
runs first. -/
theorem callAgent_unauthenticated_no_fetch (s : ApiServiceState)
    (model prompt format : String) (oracle : AgentRequest → HttpResponse)
    (hprompt : jsTrim prompt ≠ "")
    (hauth : (isAuthenticated s).1 = false) :
    callAgent s model prompt format oracle =
      { result := Except.error
          (JsError.plain "Not authenticated. Please set your API key first."),
        fetches := 0 } := by
  have hp0 : ¬(prompt = "" ∨ jsTrim prompt = "") := by
    rintro (h | h)
    · subst h; exact hprompt rfl
    · exact hprompt h
  simp [callAgent, hp0, hauth]

/-- Witness for C7 at a concrete unauthenticated state and valid prompt. -/
theorem callAgent_unauthenticated_no_fetch_witness :
    jsTrim "hello" ≠ "" ∧
      (isAuthenticated { apiKey := none, storage := none }).1 = false ∧
      callAgent { apiKey := none, storage := none } "octagon-agent" "hello" "table"
          (fun _ => { ok := true, status := 200, body := "" }) =
        { result := Except.error
            (JsError.plain "Not authenticated. Please set your API key first."),
          fetches := 0 } :=
  ⟨by decide, rfl, callAgent_unauthenticated_no_fetch _ _ _ _ _ (by decide) rfl⟩

/-- Counterexample to C7 as stated: with no credential stored and an empty
prompt, the failure is the invalid-prompt error, not the unauthenticated
one. -/
theorem callAgent_unauthenticated_counterexample :
    (callAgent { apiKey := none, storage := none } "octagon-agent" "" "table"
        (fun _ => { ok := true, status := 200, body := "" })).result =
      Except.error (JsError.plain "Please provide a valid prompt") ∧
    JsError.plain "Please provide a valid prompt" ≠
      JsError.plain "Not authenticated. Please set your API key first." :=
  ⟨rfl, by decide⟩

/-- C6 (amended): at an authenticated state with a valid prompt (both checked
first), a format string whose lowercase form is neither one of the three
recognized format strings (raw, table and single_cell, the latter spelled
single-cell in the specification) nor one of the property names inherited
from Object.prototype, and which is not the empty string, makes the pipeline
fail with the invalidValue CustomFunctions error before any fetch; an
omitted format at the custom-function surface behaves exactly as the format
table, and so does the empty string, which is equally falsy; a lowercase
form naming an inherited Object.prototype property instead passes the
lookup's truthiness check and the call proceeds. -/
theorem octagonAgent_invalid_format (s : ApiServiceState) (prompt format : String)
    (oracle : AgentRequest → HttpResponse)
    (hprompt : jsTrim prompt ≠ "")
    (hauth : (isAuthenticated s).1 = true)
    (h1 : jsToLower format ≠ "raw") (h2 : jsToLower format ≠ "table")
    (h3 : jsToLower format ≠ "single_cell")
    (h4 : jsToLower format ∉ objectProtoProps)
    (h5 : format ≠ "") :
    OCTAGON_AGENT s prompt (some format) oracle =
      { result := Except.error (JsError.customFunctions ErrorCode.invalidValue
          "Invalid format. Please use \"raw\", \"table\", or \"single_cell\""),
        fetches := 0 } ∧
    OCTAGON_AGENT s prompt none oracle = OCTAGON_AGENT s prompt (some "table") oracle ∧
    OCTAGON_AGENT s prompt (some "") oracle =
      OCTAGON_AGENT s prompt (some "table") oracle := by
  have hp0 : ¬(prompt = "" ∨ jsTrim prompt = "") := by
    rintro (h | h)
    · subst h; exact hprompt rfl
    · exact hprompt h
  refine ⟨?_, rfl, rfl⟩
  simp [OCTAGON_AGENT, callAgent, hp0, hauth, getTextFormat, formatMap,
    h1, h2, h3, h4, h5]

/-- Witness for C6 at a concrete authenticated state, valid prompt and the
unrecognized format string XML. -/
theorem octagonAgent_invalid_format_witness :
    jsTrim "hello" ≠ "" ∧
      (isAuthenticated { apiKey := none, storage := some "key" }).1 = true ∧
      jsToLower "XML" ≠ "raw" ∧ jsToLower "XML" ∉ objectProtoProps ∧
      OCTAGON_AGENT { apiKey := none, storage := some "key" } "hello" (some "XML")
          (fun _ => { ok := true, status := 200, body := "" }) =
        { result := Except.error (JsError.customFunctions ErrorCode.invalidValue
            "Invalid format. Please use \"raw\", \"table\", or \"single_cell\""),
          fetches := 0 } :=
  ⟨by decide, rfl, by decide, by decide,
   (octagonAgent_invalid_format { apiKey := none, storage := some "key" } "hello" "XML"
      (fun _ => { ok := true, status := 200, body := "" }) (by decide) rfl (by decide)
      (by decide) (by decide) (by decide) (by decide)).1⟩

/-- Counterexample to C6 as stated: the format string constructor is outside
the recognized set however compared, yet formatMap[format] reaches the
truthy inherited Object.prototype member, so callAgent does not fail with
the invalid-input condition — it issues the fetch and returns a grid. -/
theorem callAgent_inherited_format_counterexample :
    jsToLower "constructor" ≠ "raw" ∧ jsToLower "constructor" ≠ "table" ∧
    jsToLower "constructor" ≠ "single_cell" ∧
    callAgent { apiKey := none, storage := some "key" } "octagon-agent" "hello"
        "constructor"
        (fun _ => { ok := true, status := 200, body := "\x7b\"output\":[]\x7d" }) =
      { result := Except.ok fallbackGrid, fetches := 1 } :=
  ⟨by decide, by decide, by decide, rfl⟩

/-- C9: in the callAgent pipeline, a decoded response whose extracted content
is empty is replaced by the string No response content before formatting, so
under format raw the returned grid is the fallback grid rather than a grid
holding the empty string. -/
theorem callAgent_empty_content_raw (s : ApiServiceState) (model prompt : String)
    (oracle : AgentRequest → HttpResponse) (r : AgentResponse)
    (hprompt : jsTrim prompt ≠ "")
    (hauth : (isAuthenticated s).1 = true)
    (hok : (oracle { model := model, input := prompt, text := TextFormat.RAW_TEXT }).ok = true)
    (hbody : parseAgentResponse
      (oracle { model := model, input := prompt, text := TextFormat.RAW_TEXT }).body =
        Except.ok r)
    (hcontent : r.content = "") :
    callAgent s model prompt "raw" oracle =
      { result := Except.ok fallbackGrid, fetches := 1 } ∧
    fallbackGrid ≠ JVal.arr [JVal.arr [JVal.str ""]] := by
  have hp0 : ¬(prompt = "" ∨ jsTrim prompt = "") := by
    rintro (h | h)
    · subst h; exact hprompt rfl
    · exact hprompt h
  obtain ⟨k, hk⟩ := isAuthenticated_apiKey_of_true hauth
  constructor
  · simp [callAgent, createResponse, hp0, hauth, hk, getTextFormat, formatMap,
      hok, hbody, hcontent, parseTextFormat, fallbackGrid]
  · simp [fallbackGrid]

/-- Witness for C9 at a concrete authenticated state and a 200 response whose
body decodes to empty content. -/
theorem callAgent_empty_content_raw_witness :
    parseAgentResponse "\x7b\"output\":[]\x7d" =
      Except.ok { content := "", id := JVal.undef, model := JVal.undef } ∧
      callAgent { apiKey := none, storage := some "key" } "octagon-agent" "hello" "raw"
          (fun _ => { ok := true, status := 200, body := "\x7b\"output\":[]\x7d" }) =
        { result := Except.ok fallbackGrid, fetches := 1 } :=
  ⟨rfl,
   (callAgent_empty_content_raw { apiKey := none, storage := some "key" } "octagon-agent"
      "hello" (fun _ => { ok := true, status := 200, body := "\x7b\"output\":[]\x7d" })
      { content := "", id := JVal.undef, model := JVal.undef }
      (by decide) rfl rfl rfl rfl).1⟩

/-- C8 (amended): in the current OfficeRuntime.storage credential store,
setting an empty or whitespace-only key equals clearing — the state is the
cleared state, no stored value remains and isAuthenticated is false — and
setting a non-empty key persists exactly the trimmed value, overwriting any
prior state; the legacy sessionStorage setApiKey instead persists the raw,
untrimmed value. -/
theorem setApiKey_trim_semantics (s : ApiServiceState) (key : String) :
    (jsTrim key = "" →
      setApiKey s key = clearApiKey s ∧
      (setApiKey s key).storage = none ∧
      (isAuthenticated (setApiKey s key)).1 = false) ∧
    (jsTrim key ≠ "" →
      (setApiKey s key).storage = some (jsTrim key) ∧
      (setApiKey s key).apiKey = some (jsTrim key)) := by
  constructor
  · intro h
    refine ⟨?_, ?_, ?_⟩ <;>
      simp [setApiKey, clearApiKey, isAuthenticated, loadApiKey, getStoredApiKey, h]
  · intro h
    constructor <;> simp [setApiKey, h]

/-- Witness for C8: a whitespace key clears a previously set state, and a
padded key is stored trimmed. -/
theorem setApiKey_trim_semantics_witness :
    jsTrim "  " = "" ∧
      setApiKey { apiKey := some "old", storage := some "old" } "  " =
        clearApiKey { apiKey := some "old", storage := some "old" } ∧
      jsTrim " k " ≠ "" ∧
      (setApiKey { apiKey := some "old", storage := some "old" } " k ").storage =
        some "k" :=
  ⟨rfl,
   ((setApiKey_trim_semantics { apiKey := some "old", storage := some "old" } "  ").1
      rfl).1,
   by decide,
   ((setApiKey_trim_semantics { apiKey := some "old", storage := some "old" } " k ").2
      (by decide)).1⟩

/-- Counterexample to C8 as stated: the legacy sessionStorage setApiKey
persists the raw value, so a padded key is stored untrimmed and a
whitespace-only key leaves a stored value behind rather than clearing. -/
theorem setApiKeyLegacy_untrimmed_counterexample :
    (setApiKeyLegacy ⟨none, none, none⟩ " secret ").octagonApiKey = some " secret " ∧
    some " secret " ≠ some (jsTrim " secret ") ∧
    (setApiKeyLegacy ⟨none, none, none⟩ " ").octagonApiKey = some " " :=
  ⟨rfl, by decide, rfl⟩

/-- C10: the legacy clearApiKey removes only the credential: it nulls the
in-memory key, deletes the direct storage key, and rewrites the
CachedSessionSettings blob as the serialization of its parsed fields minus
octagon_api_key, every other field being preserved unchanged. -/
theorem clearApiKeyLegacy_frame (s : LegacyState) (blob : String)
    (fs : List (String × JVal))
    (hblob : s.cachedSessionSettings = some blob)
    (hparse : jsonParse blob = some (JVal.obj fs)) :
    (clearApiKeyLegacy s).apiKey = none ∧
    (clearApiKeyLegacy s).octagonApiKey = none ∧
    (clearApiKeyLegacy s).cachedSessionSettings =
      some (jsonStringify (JVal.obj (fs.filter (fun p => p.1 ≠ "octagon_api_key")))) ∧
    lookupField (fs.filter (fun p => p.1 ≠ "octagon_api_key")) "octagon_api_key" =
      none ∧
    (∀ k, k ≠ "octagon_api_key" →
      lookupField (fs.filter (fun p => p.1 ≠ "octagon_api_key")) k =
        lookupField fs k) := by
  have hblobne : blob ≠ "" := by
    intro h
    rw [h] at hparse
    exact Option.noConfusion hparse
  refine ⟨rfl, rfl, ?_, lookupField_filter_self fs "octagon_api_key",
    fun k hk => lookupField_filter_other fs "octagon_api_key" k hk⟩
  simp [clearApiKeyLegacy, hblob, hblobne, hparse, truthy]

/-- Witness for C10 at a concrete blob holding the credential and one other
field, which survives the rewrite. -/
theorem clearApiKeyLegacy_frame_witness :
    jsonParse "\x7b\"octagon_api_key\":\"k\",\"theme\":\"dark\"\x7d" =
      some (JVal.obj [("octagon_api_key", JVal.str "k"), ("theme", JVal.str "dark")]) ∧
    (clearApiKeyLegacy ⟨some "k", some "k",
        some "\x7b\"octagon_api_key\":\"k\",\"theme\":\"dark\"\x7d"⟩).cachedSessionSettings =
      some "\x7b\"theme\":\"dark\"\x7d" :=
  ⟨rfl,
   ((clearApiKeyLegacy_frame ⟨some "k", some "k",
        some "\x7b\"octagon_api_key\":\"k\",\"theme\":\"dark\"\x7d"⟩
      "\x7b\"octagon_api_key\":\"k\",\"theme\":\"dark\"\x7d"
      [("octagon_api_key", JVal.str "k"), ("theme", JVal.str "dark")]
      rfl rfl).2.2.1).trans (by rfl)⟩

/-!
Decoder lemmas: how processLine treats each kind of line, and how the parse
error counter evolves over a whole stream.
-/

lemma dispatchEvent_parseErrorCount (st : StreamState) (d : JVal) :
    (dispatchEvent st d).parseErrorCount = st.parseErrorCount := by
  simp only [dispatchEvent]
  split_ifs <;> rfl

lemma processLine_skip_of_not_event {line : String}
    (h1 : ¬ jsStartsWith line "data: " = true) (st : StreamState) :
    processLine st line = Except.ok st := by
  simp [processLine, h1]

lemma processLine_skip_of_done {line : String}
    (h1 : jsStartsWith line "data: " = true)
    (h2 : jsTrim (jsDrop line 6) = "[DONE]") (st : StreamState) :
    processLine st line = Except.ok st := by
  simp [processLine, h1, h2]

lemma processLine_eq_dispatch {line : String} {v : JVal}
    (h1 : jsStartsWith line "data: " = true)
    (h2 : jsTrim (jsDrop line 6) ≠ "[DONE]")
    (hp : jsonParse (jsDrop line 6) = some v) (hv : v ≠ JVal.null)
    (st : StreamState) :
    processLine st line = Except.ok (dispatchEvent st v) := by
  cases v with
  | null => exact absurd rfl hv
  | undef => simp [processLine, h1, h2, hp]
  | bool b => simp [processLine, h1, h2, hp]
  | num lit => simp [processLine, h1, h2, hp]
  | str s => simp [processLine, h1, h2, hp]
  | arr xs => simp [processLine, h1, h2, hp]
  | obj fs => simp [processLine, h1, h2, hp]

lemma processLine_count_of_bad {line : String}
    (h : isBadEventLine line = true) (st : StreamState) :
    processLine st line = countParseError st := by
  unfold isBadEventLine at h
  by_cases h1 : jsStartsWith line "data: " = true
  · rw [h1, Bool.true_and] at h
    by_cases h2 : jsTrim (jsDrop line 6) = "[DONE]"
    · simp [h2] at h
    · simp only [ne_eq, h2, not_false_eq_true, decide_True, Bool.true_and] at h
      cases hp : jsonParse (jsDrop line 6) with
      | none => simp [processLine, h1, h2, hp]
      | some v =>
        rw [hp] at h
        cases v with
        | null => simp [processLine, h1, h2, hp]
        | undef => simp at h
        | bool b => simp at h
        | num lit => simp at h
        | str s => simp at h
        | arr xs => simp at h
        | obj fs => simp at h
  · rw [Bool.not_eq_true] at h1
    rw [h1, Bool.false_and] at h
    exact absurd h (by simp)

lemma processLine_ok_of_not_bad {line : String}
    (h : isBadEventLine line = false) (st : StreamState) :
    ∃ st1, processLine st line = Except.ok st1 ∧
      st1.parseErrorCount = st.parseErrorCount := by
  unfold isBadEventLine at h
  by_cases h1 : jsStartsWith line "data: " = true
  · rw [h1, Bool.true_and] at h
    by_cases h2 : jsTrim (jsDrop line 6) = "[DONE]"
    · exact ⟨st, processLine_skip_of_done h1 h2 st, rfl⟩
    · simp only [ne_eq, h2, not_false_eq_true, decide_True, Bool.true_and] at h
      cases hp : jsonParse (jsDrop line 6) with
      | none => rw [hp] at h; simp at h
      | some v =>
        rw [hp] at h
        cases v with
        | null => simp at h
        | undef =>
          exact ⟨_, processLine_eq_dispatch h1 h2 hp (by simp) st,
            dispatchEvent_parseErrorCount st _⟩
        | bool b =>
          exact ⟨_, processLine_eq_dispatch h1 h2 hp (by simp) st,
            dispatchEvent_parseErrorCount st _⟩
        | num lit =>
          exact ⟨_, processLine_eq_dispatch h1 h2 hp (by simp) st,
            dispatchEvent_parseErrorCount st _⟩
        | str s =>
          exact ⟨_, processLine_eq_dispatch h1 h2 hp (by simp) st,
            dispatchEvent_parseErrorCount st _⟩
        | arr xs =>
          exact ⟨_, processLine_eq_dispatch h1 h2 hp (by simp) st,
            dispatchEvent_parseErrorCount st _⟩
        | obj fs =>
          exact ⟨_, processLine_eq_dispatch h1 h2 hp (by simp) st,
            dispatchEvent_parseErrorCount st _⟩
  · exact ⟨st, processLine_skip_of_not_event h1 st, rfl⟩

lemma countParseError_ok {st : StreamState} (h : st.parseErrorCount + 1 ≤ 5) :
    countParseError st =
      Except.ok { st with parseErrorCount := st.parseErrorCount + 1 } := by
  unfold countParseError
  rw [if_neg (by omega)]

lemma countParseError_error {st : StreamState} (h : 5 ≤ st.parseErrorCount) :
    countParseError st =
      Except.error "Stream parsing failed: Too many JSON parse errors" := by
  unfold countParseError
  rw [if_pos (by omega)]

lemma processLines_ok (ls : List String) : ∀ st : StreamState,
    st.parseErrorCount + ls.countP isBadEventLine ≤ 5 →
    ∃ st1, processLines st ls = Except.ok st1 ∧
      st1.parseErrorCount = st.parseErrorCount + ls.countP isBadEventLine := by
  induction ls with
  | nil => exact fun st h => ⟨st, rfl, by simp⟩
  | cons l ls ih =>
    intro st h
    by_cases hb : isBadEventLine l = true
    · rw [List.countP_cons_of_pos _ _ hb] at h ⊢
      have hcount : st.parseErrorCount + 1 ≤ 5 := by omega
      have hline := processLine_count_of_bad hb st
      have hstep := countParseError_ok hcount
      obtain ⟨st1, hrec, hcnt⟩ :=
        ih { st with parseErrorCount := st.parseErrorCount + 1 } (by simp; omega)
      refine ⟨st1, ?_, ?_⟩
      · unfold processLines
        rw [hline, hstep]
        exact hrec
      · simp at hcnt
        omega
    · rw [List.countP_cons_of_neg _ _ (by simpa using hb)] at h ⊢
      obtain ⟨stm, hline, hcnt0⟩ :=
        processLine_ok_of_not_bad (by simpa using hb) st
      obtain ⟨st1, hrec, hcnt⟩ := ih stm (by omega)
      refine ⟨st1, ?_, by omega⟩
      unfold processLines
      rw [hline]
      exact hrec

lemma processLines_error (ls : List String) : ∀ st : StreamState,
    st.parseErrorCount ≤ 5 →
    6 ≤ st.parseErrorCount + ls.countP isBadEventLine →
    processLines st ls =
      Except.error "Stream parsing failed: Too many JSON parse errors" := by
  induction ls with
  | nil =>
    intro st h1 h2
    simp at h2
    omega
  | cons l ls ih =>
    intro st h1 h2
    by_cases hb : isBadEventLine l = true
    · rw [List.countP_cons_of_pos _ _ hb] at h2
      have hline := processLine_count_of_bad hb st
      by_cases hfull : 5 ≤ st.parseErrorCount
      · unfold processLines
        rw [hline, countParseError_error hfull]
      · have hcount : st.parseErrorCount + 1 ≤ 5 := by omega
        unfold processLines
        rw [hline, countParseError_ok hcount]
        exact ih _ (by simpa using hcount) (by simp; omega)
    · rw [List.countP_cons_of_neg _ _ (by simpa using hb)] at h2
      obtain ⟨stm, hline, hcnt0⟩ :=
        processLine_ok_of_not_bad (by simpa using hb) st
      unfold processLines
      rw [hline]
      exact ih stm (by omega) (by omega)

lemma processLines_append (l1 l2 : List String) : ∀ st : StreamState,
    processLines st (l1 ++ l2) =
      match processLines st l1 with
      | Except.ok st1 => processLines st1 l2
      | Except.error e => Except.error e := by
  induction l1 with
  | nil => intro st; rfl
  | cons l l1 ih =>
    intro st
    rw [List.cons_append]
    show (match processLine st l with
          | Except.ok st1 => processLines st1 (l1 ++ l2)
          | Except.error e => Except.error e) =
        match (match processLine st l with
               | Except.ok st1 => processLines st1 l1
               | Except.error e => Except.error e) with
        | Except.ok st1 => processLines st1 l2
        | Except.error e => Except.error e
    cases processLine st l with
    | ok st1 => exact ih st1
    | error e => rfl

lemma processChunks_eq_processLines (cs : List String) : ∀ st : StreamState,
    processChunks st cs = processLines st ((cs.map linesOf).flatten) := by
  induction cs with
  | nil => intro st; rfl
  | cons c cs ih =>
    intro st
    show processChunks st (c :: cs) =
      processLines st ((linesOf c :: cs.map linesOf).flatten)
    rw [List.flatten_cons, processLines_append]
    show (match processLines st (linesOf c) with
          | Except.ok st1 => processChunks st1 cs
          | Except.error e => Except.error e) =
        match processLines st (linesOf c) with
        | Except.ok st1 => processLines st1 ((cs.map linesOf).flatten)
        | Except.error e => Except.error e
    cases processLines st (linesOf c) with
    | ok st1 => exact ih st1
    | error e => rfl

/-- C2 (amended): the decoder's counter covers the event lines whose
remainder is not the sentinel and either is not valid JSON or is the JSON
literal null (whose .type read throws inside the same try block and is
counted by the same handler); six or more such lines abort the decode with
the stream-corrupted failure, and five or fewer are non-fatal, decoding
proceeding to a normal result. -/
theorem handleStreamedResponse_corruption_threshold (chunks : List String) (now : JVal) :
    (6 ≤ badLineCount chunks →
      handleStreamedResponse chunks now =
        Except.error "Stream parsing failed: Too many JSON parse errors") ∧
    (badLineCount chunks ≤ 5 →
      ∃ r, handleStreamedResponse chunks now = Except.ok r) := by
  have he := processChunks_eq_processLines chunks initialStreamState
  constructor
  · intro h
    unfold handleStreamedResponse
    rw [he, processLines_error _ initialStreamState (by simp [initialStreamState])
      (by simpa [initialStreamState, badLineCount] using h)]
  · intro h
    obtain ⟨st1, h1, _⟩ := processLines_ok ((chunks.map linesOf).flatten)
      initialStreamState (by simpa [initialStreamState, badLineCount] using h)
    unfold handleStreamedResponse
    rw [he, h1]
    exact ⟨_, rfl⟩

/-- Witness for C2: six unparseable event lines abort the decode, and two
such lines do not. -/
theorem handleStreamedResponse_corruption_threshold_witness :
    (6 ≤ badLineCount (List.replicate 6 "data: oops") ∧
      handleStreamedResponse (List.replicate 6 "data: oops") JVal.null =
        Except.error "Stream parsing failed: Too many JSON parse errors") ∧
    (badLineCount ["data: oops", "data: oops"] ≤ 5 ∧
      ∃ r, handleStreamedResponse ["data: oops", "data: oops"] JVal.null =
        Except.ok r) :=
  ⟨⟨by decide,
    (handleStreamedResponse_corruption_threshold (List.replicate 6 "data: oops")
      JVal.null).1 (by decide)⟩,
   ⟨by decide,
    (handleStreamedResponse_corruption_threshold ["data: oops", "data: oops"]
      JVal.null).2 (by decide)⟩⟩

/-- Counterexample to C2 as stated: a stream with zero malformed event lines
in the claim's sense (all lines are valid JSON) whose six null events
nevertheless abort the decode, where the claim requires a normal result. -/
theorem handleStreamedResponse_null_lines_counterexample :
    malformedLineCount (List.replicate 6 "data: null") = 0 ∧
    handleStreamedResponse (List.replicate 6 "data: null") JVal.null =
      Except.error "Stream parsing failed: Too many JSON parse errors" :=
  ⟨rfl, rfl⟩

lemma processChunks_append (c1 c2 : List String) : ∀ st : StreamState,
    processChunks st (c1 ++ c2) =
      match processChunks st c1 with
      | Except.ok st1 => processChunks st1 c2
      | Except.error e => Except.error e := by
  induction c1 with
  | nil => intro st; rfl
  | cons c c1 ih =>
    intro st
    rw [List.cons_append]
    show (match processLines st (linesOf c) with
          | Except.ok st1 => processChunks st1 (c1 ++ c2)
          | Except.error e => Except.error e) =
        match (match processLines st (linesOf c) with
               | Except.ok st1 => processChunks st1 c1
               | Except.error e => Except.error e) with
        | Except.ok st1 => processChunks st1 c2
        | Except.error e => Except.error e
    cases processLines st (linesOf c) with
    | ok st1 => exact ih st1
    | error e => rfl

/-- Concatenation of a list of text deltas in stream order. -/
def concatAll : List String → String
  | [] => ""
  | d :: ds => d ++ concatAll ds

/-- A text-delta stream event carrying the delta d, as JSON.parse produces
it from the wire line. -/
def deltaEvent (d : String) : JVal :=
  JVal.obj [("type", JVal.str "response.output_text.delta"), ("delta", JVal.str d)]

lemma dispatchEvent_deltaEvent (st : StreamState) (d : String) :
    dispatchEvent st (deltaEvent d) = { st with fullText := st.fullText ++ d } := by
  by_cases hd : d = ""
  · subst hd
    simp [dispatchEvent, deltaEvent, optChainProp, lookupField, strictEqStr, truthy,
      String.append_empty]
  · simp [dispatchEvent, deltaEvent, optChainProp, lookupField, strictEqStr, truthy,
      hd, jsToString]

/-- The shape of a single-line chunk carrying one text-delta event. -/
def isDeltaLineFor (l d : String) : Prop :=
  linesOf l = [l] ∧ jsStartsWith l "data: " = true ∧
    jsTrim (jsDrop l 6) ≠ "[DONE]" ∧ jsonParse (jsDrop l 6) = some (deltaEvent d)

lemma processChunks_delta_chunks {ls ds : List String}
    (h : List.Forall₂ isDeltaLineFor ls ds) :
    ∀ st : StreamState, processChunks st ls =
      Except.ok { st with fullText := st.fullText ++ concatAll ds } := by
  induction h with
  | nil =>
    intro st
    show Except.ok st = _
    rw [show st.fullText ++ concatAll [] = st.fullText from String.append_empty _]
  | @cons l d ls ds hld hrest ih =>
    intro st
    obtain ⟨hl, h1, h2, h3⟩ := hld
    have hline := processLine_eq_dispatch h1 h2 h3 (by simp [deltaEvent]) st
    rw [dispatchEvent_deltaEvent] at hline
    have hlines : processLines st [l] =
        Except.ok { st with fullText := st.fullText ++ d } := by
      show (match processLine st l with
            | Except.ok st1 => processLines st1 []
            | Except.error e => Except.error e) =
          Except.ok { st with fullText := st.fullText ++ d }
      rw [hline]
      rfl
    show (match processLines st (linesOf l) with
          | Except.ok st1 => processChunks st1 ls
          | Except.error e => Except.error e) = _
    rw [hl, hlines]
    show processChunks { st with fullText := st.fullText ++ d } ls = _
    rw [ih]
    show Except.ok _ = _
    rw [show (st.fullText ++ d) ++ concatAll ds = st.fullText ++ concatAll (d :: ds)
      from String.append_assoc _ _ _]

/-- C3: a stream consisting only of single-line chunks carrying text-delta
events with deltas ds, followed by the end-of-stream sentinel, decodes to a
well-formed success whose content is the concatenation of the deltas in
stream order (empty for no deltas), with id and model defaulted to the empty
string and created defaulted to the current time, no final structured
response having been captured. -/
theorem handleStreamedResponse_delta_stream (ds ls : List String) (now : JVal)
    (h : List.Forall₂ isDeltaLineFor ls ds) :
    handleStreamedResponse (ls ++ ["data: [DONE]"]) now =
      Except.ok { content := concatAll ds, id := JVal.str "",
                  model := JVal.str "", created := now, output := JVal.arr [],
                  rawResponse := JVal.null } := by
  unfold handleStreamedResponse
  rw [processChunks_append, processChunks_delta_chunks h initialStreamState]
  rfl

/-- Witness for C3 at the specification's scenario: deltas Risk and
factors... concatenate to Risk factors... with defaulted metadata. -/
theorem handleStreamedResponse_delta_stream_witness :
    isDeltaLineFor
        "data: \x7b\"type\":\"response.output_text.delta\",\"delta\":\"Risk \"\x7d"
        "Risk " ∧
    handleStreamedResponse
        ["data: \x7b\"type\":\"response.output_text.delta\",\"delta\":\"Risk \"\x7d",
         "data: \x7b\"type\":\"response.output_text.delta\",\"delta\":\"factors...\"\x7d",
         "data: [DONE]"] (JVal.num "1700000000000") =
      Except.ok { content := "Risk factors...", id := JVal.str "",
                  model := JVal.str "", created := JVal.num "1700000000000",
                  output := JVal.arr [], rawResponse := JVal.null } :=
  ⟨⟨rfl, rfl, by decide, rfl⟩,
   handleStreamedResponse_delta_stream ["Risk ", "factors..."]
     ["data: \x7b\"type\":\"response.output_text.delta\",\"delta\":\"Risk \"\x7d",
      "data: \x7b\"type\":\"response.output_text.delta\",\"delta\":\"factors...\"\x7d"]
     (JVal.num "1700000000000")
     (List.Forall₂.cons ⟨rfl, rfl, by decide, rfl⟩
       (List.Forall₂.cons ⟨rfl, rfl, by decide, rfl⟩ List.Forall₂.nil))⟩
